import Mathlib

/-!
Verification development for the gockpit telemetry core (`state.go`,
`supervisor.go`): a shallow embedding of the State / StateMutation
transaction mechanism and of the Supervisor sampling loop, together with
theorems about the behaviours documented for them.

Modelling conventions:
* Go `interface{}` scalar values are the inductive `GoVal`; the Go `nil`
  interface value is `GoVal.vnil`.  Go `float32`/`float64` values are kept
  abstract (an integer stand-in for the bit pattern): no claim examined
  here computes with floating point, only with the dynamic type tags and
  the zero/default paths.
* Go maps are `GoMap`, an association list with map semantics (`set`
  removes every older binding of the key, so lookups and emptiness behave
  exactly like a Go map; Go maps are unordered, so the representation
  order carries no meaning).
* `sync.RWMutex` is dropped: the embedding is the sequential semantics of
  the lock-protected bodies, which is what the functional claims are
  about.
* Go `error` interface values are `Option GoErr` (`none` = `nil`), with
  `GoErr` an abstract error identity compared the way Go compares interface
  values with `==`.
* Panics (`panic(fmt.Errorf(...))`) are modelled with `Except String`.
* The `Errors` and `Alert`/`Alerts` collaborators are not part of the two
  core source files; where their behaviour matters they are modelled from
  the spec (see the individual doc comments).
-/

/-- Lean's `Int`, under a name the `State` accessor namespace cannot
shadow. -/
abbrev ZInt := Int

/-- Lean's `Bool`, under a name the `State` accessor namespace cannot
shadow. -/
abbrev BBool := Bool

/-- Lean's `String`, under a name the `State` accessor namespace cannot
shadow. -/
abbrev SString := String

/-- Abstract identity of a Go `error` interface value; two errors are the
same exactly when Go's `==` on the interface values says so. -/
structure GoErr where
  id : Nat
deriving DecidableEq, Repr

/-- Dynamically typed Go scalar value stored in `State.data`
(`map[string]interface{}`).  `vnil` is the nil interface value; the
integer field of `vfloat32`/`vfloat64` is an abstract stand-in for the
float bit pattern (`0` standing for `0.0`). -/
inductive GoVal where
  | vnil
  | vint (i : Int)
  | vint8 (i : Int)
  | vint32 (i : Int)
  | vint64 (i : Int)
  | vfloat32 (r : Int)
  | vfloat64 (r : Int)
  | vbool (b : Bool)
  | vstr (s : String)
deriving DecidableEq, Repr

/-- Association list used to model a Go map with `String` keys. -/
structure GoMap (α : Type) where
  entries : List (String × α)
deriving DecidableEq, Repr

/-- First binding of `k`, if any (a `GoMap` built by the operations below
never has two bindings of the same key, like a Go map). -/
def lookupEntries {α : Type} : List (String × α) → String → Option α
  | [], _ => none
  | (k', v) :: rest, k => if k' = k then some v else lookupEntries rest k

/-- Remove every binding of `k` (models Go's `delete(m, k)`). -/
def eraseEntries {α : Type} : List (String × α) → String → List (String × α)
  | [], _ => []
  | (k', v) :: rest, k =>
    if k' = k then eraseEntries rest k else (k', v) :: eraseEntries rest k

def GoMap.lookup {α : Type} (m : GoMap α) (k : String) : Option α :=
  lookupEntries m.entries k

/-- Go map assignment `m[k] = v`. -/
def GoMap.set {α : Type} (m : GoMap α) (k : String) (v : α) : GoMap α :=
  ⟨(k, v) :: eraseEntries m.entries k⟩

/-- Go `delete(m, k)`. -/
def GoMap.erase {α : Type} (m : GoMap α) (k : String) : GoMap α :=
  ⟨eraseEntries m.entries k⟩

def GoMap.isEmpty {α : Type} (m : GoMap α) : Bool :=
  m.entries.isEmpty

/-- The `Errors` collaborator's underlying table.  Modelled from the spec:
the `Errors` type is not part of the two core source files; §6 describes it
as "a multi-error collection keyed by code" with map-like lookup/deletion,
of which "only the latest error per key is consulted by the core", so it is
modelled as a map from code to the latest (non-nil) error. -/
abbrev Errors := GoMap GoErr

/-- Modelled from the spec: `Errors.Collect` ("insert/collect a new error
under a code") records `err` as the latest error under `code`. -/
def Errors.Collect (m : Errors) (code : String) (err : GoErr) : Errors :=
  m.set code err

/-- The `Alert` collaborator.  Modelled from the spec (§6): it "exposes an
`update(currentValue, self)` hook invoked on every State merge for its
bound key"; the hook is modelled as a function from the key's current
value to the alert's next state. -/
inductive Alert where
  | mk (hook : GoVal → Alert)

/-- `a.update(currentValue, a)`: run the alert's update hook. -/
def Alert.update (a : Alert) (v : GoVal) : Alert :=
  match a with
  | .mk hook => hook v

abbrev Alerts := GoMap Alert

/-- `State` from `state.go`: the live key/value store with its error and
alert tables.  The `sync.RWMutex` is dropped (sequential semantics of the
lock-held bodies); a nil Go map and an empty Go map behave identically in
every operation of the source (lookup, delete, len, range, omitempty), so
both are the empty `GoMap`. -/
structure State where
  data : GoMap GoVal
  errors : Errors
  alerts : Alerts

def emptyState : State :=
  { data := ⟨[]⟩, errors := ⟨[]⟩, alerts := ⟨[]⟩ }

/-- `StateMutation` from `state.go`: the live state pointer, the
disconnected staging `State`, and the dirty flag. -/
structure StateMutation where
  state : State
  mutation : State
  dirty : Bool

/-- `State.With`: a fresh mutation over `s` with an empty staging `State`
(`&State{}`) and a clean dirty flag. -/
def State.With (s : State) : StateMutation :=
  { state := s, mutation := emptyState, dirty := false }

/-- `State.set` (unexported): store `val` under `key` in `data`,
initializing the nil map if needed (a no-op in the model). -/
def State.set (s : State) (key : String) (val : GoVal) : State :=
  { s with data := s.data.set key val }

/-- `State.setError` (unexported): a nil error deletes any existing entry
for `code`; a non-nil error is recorded through `Errors.Collect`,
replacing the previous latest error under `code`. -/
def State.setError (s : State) (code : String) (err : Option GoErr) : State :=
  match err with
  | none => { s with errors := s.errors.erase code }
  | some e => { s with errors := Errors.Collect s.errors code e }

/-- `State.getError` (unexported): the latest error for `code`, or absence. -/
def State.getError (s : State) (code : String) : Option GoErr :=
  s.errors.lookup code

/-- `State.HasErrors`: `len(s.errors) > 0`. -/
def State.HasErrors (s : State) : Bool :=
  0 < s.errors.entries.length

/-- `State.Err`: the latest error for `name`, or absence.  Modelled from
the spec for the absent-key case: the `Errors` value type is not in the
core sources, and §4.1 specifies "read the latest error for a key, or
absence". -/
def State.Err (s : State) (name : String) : Option GoErr :=
  s.errors.lookup name

/-- `State.apply` (unexported): merge `other.data` into `s.data` key-wise,
then run every registered alert's update hook against the current value of
its bound key (`s.data[key]`, nil when absent).  Note the source merges
only `other.data`; `other.errors` is not read. -/
def State.apply (s : State) (other : State) : State :=
  { s with
    data := other.data.entries.foldl (fun acc p => acc.set p.1 p.2) s.data,
    alerts :=
      ⟨s.alerts.entries.map (fun p =>
        (p.1,
         p.2.update (((other.data.entries.foldl (fun acc p => acc.set p.1 p.2) s.data).lookup p.1).getD GoVal.vnil)))⟩ }

/-- `StateMutation.Set`: compare `val` with the live state's current value
for `key` (`s.state.data[key]`, nil interface when absent); if equal the
mutation stays untouched, otherwise the value is staged and the mutation
marked dirty. -/
def StateMutation.Set (s : StateMutation) (key : String) (val : GoVal) : StateMutation :=
  if (s.state.data.lookup key).getD GoVal.vnil = val then s
  else { s with dirty := true, mutation := s.mutation.set key val }

/-- `StateMutation.SetError`: compare `err` with the live state's current
latest error for `key` (`s.state.errors[key].Err`, nil when absent); if
equal the mutation stays untouched, otherwise the error is staged and the
mutation marked dirty.  (The source's lazy `make(Errors)` initialization
of the live nil map is a no-op in the model.) -/
def StateMutation.SetError (s : StateMutation) (key : String) (err : Option GoErr) : StateMutation :=
  if err = s.state.errors.lookup key then s
  else { s with dirty := true, mutation := s.mutation.setError key err }

/-- `StateMutation.Apply`: `s.state.apply(s.mutation)`. -/
def StateMutation.Apply (s : StateMutation) : State :=
  s.state.apply s.mutation

/-- One call a probe can make on its `*StateMutation`. -/
inductive MutOp where
  | set (k : String) (v : GoVal)
  | setErr (k : String) (e : Option GoErr)

def applyMutOp (m : StateMutation) (op : MutOp) : StateMutation :=
  match op with
  | .set k v => m.Set k v
  | .setErr k e => m.SetError k e

/-- Run a probe's sequence of `Set`/`SetError` calls on a mutation. -/
def runOps (ops : List MutOp) (m : StateMutation) : StateMutation :=
  ops.foldl applyMutOp m

/-- `State.Int`: nil (absent or stored nil) yields `0`; the Go integer
family converts to `int`; any other dynamic type panics. -/
def State.Int (s : State) (name : SString) : Except SString ZInt :=
  match (s.data.lookup name).getD GoVal.vnil with
  | .vnil => .ok 0
  | .vint i => .ok i
  | .vint32 i => .ok i
  | .vint8 i => .ok i
  | .vint64 i => .ok i
  | _ => .error "is not of integer type"

/-- `State.Float`: nil yields `0.0` (abstract representation `0`); float32
widens to float64 (kept abstract); any other dynamic type panics. -/
def State.Float (s : State) (name : SString) : Except SString ZInt :=
  match (s.data.lookup name).getD GoVal.vnil with
  | .vnil => .ok 0
  | .vfloat32 r => .ok r
  | .vfloat64 r => .ok r
  | _ => .error "is not of float type"

/-- `State.Elem`: the raw stored value (nil interface when absent). -/
def State.Elem (s : State) (name : SString) : GoVal :=
  (s.data.lookup name).getD GoVal.vnil

/-- `State.Bool`: nil yields `false`; any non-boolean dynamic type panics. -/
def State.Bool (s : State) (name : SString) : Except SString BBool :=
  match (s.data.lookup name).getD GoVal.vnil with
  | .vnil => .ok false
  | .vbool b => .ok b
  | _ => .error "is not of boolean type"

/-- Abstract stand-in for `strconv.FormatFloat(_, 'g', 2, bits)` on the
abstracted float representation (no claim examines its output). -/
def formatFloatG2 (bits : Nat) (r : Int) : String :=
  "g2/" ++ toString bits ++ "/" ++ toString r

/-- Abstract stand-in for the `fmt.Sprintf("%v", _)` default branch of
`State.String` (reached only for `int8`/`int32` values). -/
def sprintfDefault : GoVal → String
  | .vint8 i => toString i
  | .vint32 i => toString i
  | v => formatFloatG2 0 (match v with | .vint b => b | _ => 0)

/-- `State.String`: nil yields `""`; strings are returned as-is; floats,
`int`, `int64` and booleans are formatted; every other type falls to the
`fmt.Sprintf` default branch.  This accessor never panics. -/
def State.String (s : State) (name : SString) : SString :=
  match (s.data.lookup name).getD GoVal.vnil with
  | .vnil => ""
  | .vstr str => str
  | .vfloat64 r => formatFloatG2 64 r
  | .vfloat32 r => formatFloatG2 32 r
  | .vint i => toString i
  | .vint64 i => toString i
  | .vbool b => if b then "true" else "false"
  | v => sprintfDefault v

/-- JSON values, for the shape of `State.MarshalJSON`'s output. -/
inductive Json where
  | null
  | jbool (b : Bool)
  | jnum (n : Int)
  | jstr (s : String)
  | jarr (xs : List Json)
  | jobj (fields : List (String × Json))

/-- Rendering of a stored scalar by `encoding/json` (floats stay abstract:
their value rendering is irrelevant to every claim examined here). -/
def GoVal.toJson : GoVal → Json
  | .vnil => .null
  | .vint i => .jnum i
  | .vint8 i => .jnum i
  | .vint32 i => .jnum i
  | .vint64 i => .jnum i
  | .vfloat32 r => .jnum r
  | .vfloat64 r => .jnum r
  | .vbool b => .jbool b
  | .vstr s => .jstr s

def dataToJson (m : GoMap GoVal) : Json :=
  .jobj (m.entries.map (fun p => (p.1, p.2.toJson)))

/-- Modelled from the spec: how the external `Errors` collaborator
marshals is not in the core sources; only the member's presence matters
here, so each latest error is rendered through its abstract identity. -/
def errorsToJson (m : Errors) : Json :=
  .jobj (m.entries.map (fun p => (p.1, Json.jstr ("error#" ++ toString p.2.id))))

/-- Modelled from the spec: the external `Alert` collaborator's own
serialization is not in the core sources and no claim examines it. -/
def alertsToJson (m : Alerts) : Json :=
  .jobj (m.entries.map (fun p => (p.1, Json.jobj [])))

/-- `State.MarshalJSON`: `encoding/json` marshalling of the anonymous
struct with fields tagged `state`, `errors,omitempty`, `alerts,omitempty`,
in declaration order; `omitempty` drops a map member exactly when the map
is nil or empty. -/
def State.MarshalJSON (s : State) : Json :=
  Json.jobj
    ([("state", dataToJson s.data)]
      ++ (if s.errors.isEmpty then [] else [("errors", errorsToJson s.errors)])
      ++ (if s.alerts.isEmpty then [] else [("alerts", alertsToJson s.alerts)]))

/-- The top-level member keys of a marshalled object. -/
def Json.objKeys : Json → List String
  | .jobj fields => fields.map Prod.fst
  | _ => []

/-- Top-level member lookup in a marshalled object. -/
def Json.objLookup (j : Json) (k : String) : Option Json :=
  match j with
  | .jobj fields => lookupEntries fields k
  | _ => none

/-- `Metric` from `supervisor.go`.  `time.Time` instants are integers
(nanoseconds since Go's zero `Time`, so the zero value is `0`);
`time.Duration` is an integer number of nanoseconds and `t.After(u)` is
`u < t`.  The probe (`Probe` object or `ProbeFunc`; both are invoked the
same way by `updateState`) is the sequence of `Set`/`SetError` calls it
performs on the mutation it is handed. -/
structure Metric where
  name : String
  interval : Int
  lastUpdate : Int
  probe : List MutOp

/-- `math.MaxInt64` nanoseconds, the largest `time.Duration` (about 292
years).  Any instant a real ticker can deliver, measured from Go's zero
`Time` (year 1), exceeds this: the Unix epoch alone is ≈ 1970 years after
the zero `Time`. -/
def maxDuration : Int := 2 ^ 63 - 1

/-- Observable actions of one pass of the sampling loop. -/
inductive Event where
  | probeRun (name : String)
  | errRestaged (name : String)
  | applied
  | listenerCalled (idx : Nat) (observed : State)
  | saveCalled (bucket : String) (name : String) (fields : GoMap GoVal)
      (tags : Option (GoMap String)) (result : Option GoErr)
  | errorLogged (e : GoErr)

def Event.isProbe : Event → Bool
  | .probeRun _ => true
  | _ => false

def Event.isListen : Event → Bool
  | .listenerCalled _ _ => true
  | _ => false

def Event.isSave : Event → Bool
  | .saveCalled _ _ _ _ _ => true
  | _ => false

def Event.isLog : Event → Bool
  | .errorLogged _ => true
  | _ => false

/-- Persistence-related events: a `Save` call or the log of its error. -/
def Event.isSaveOrLog (e : Event) : Bool :=
  e.isSave || e.isLog

/-- `Metric.updateState`: a second guard on the same due condition as the
loop (`!now.After(lastUpdate.Add(interval))` returns early), then the
probe is invoked on the shared mutation. -/
def Metric.updateState (mg : Metric) (now : Int) (mutation : StateMutation) :
    StateMutation × List Event :=
  if now ≤ mg.lastUpdate + mg.interval then (mutation, [])
  else (runOps mg.probe mutation, [Event.probeRun mg.name])

/-- One metric's slice of the tick loop body (`supervisor.go` lines
155-165): when `now.After(lastUpdate.Add(interval))` the probe runs and
`lastUpdate` is advanced to `now`; otherwise a previous live error for the
metric's key, if any, is re-staged into the shared mutation. -/
def runMetricTick (st : State) (now : Int) (mg : Metric) (mutation : StateMutation) :
    Metric × StateMutation × List Event :=
  if mg.lastUpdate + mg.interval < now then
    ({ mg with lastUpdate := now },
     (mg.updateState now mutation).1,
     (mg.updateState now mutation).2)
  else
    match st.getError mg.name with
    | some err =>
        (mg, mutation.SetError mg.name (some err), [Event.errRestaged mg.name])
    | none => (mg, mutation, [])

/-- The persistence sink's `Save`, as a pure function from its arguments
to the error it returns (`Writer.Save(ctx, bucket, name, fields, tags)`;
the context/deadline carries no information the model uses). -/
abbrev SaveFn := String → String → GoMap GoVal → Option (GoMap String) → Option GoErr

/-- `Supervisor` from `supervisor.go`.  The `metrics` Go map is carried as
a list (Go map iteration order is unspecified; no claim examined here
depends on it); listeners are their registration identities in
registration order; `store` is the optional persistence sink. -/
structure Supervisor where
  metrics : List Metric
  state : State
  listeners : List Nat
  store : Option SaveFn
  name : String

/-- `Supervisor.AddListener`: append to the listener sequence. -/
def Supervisor.AddListener (s : Supervisor) (lid : Nat) : Supervisor :=
  { s with listeners := s.listeners ++ [lid] }

/-- The traversal of the metric loop: each metric's slice is run in turn
on the shared mutation, the updated metrics and per-metric events
accumulating in order. -/
def tickMetricsGo (st : State) (now : Int) :
    List Metric → List Metric × StateMutation × List Event →
      List Metric × StateMutation × List Event
  | [], acc => acc
  | mg :: rest, acc =>
      tickMetricsGo st now rest
        (acc.1 ++ [(runMetricTick st now mg acc.2.1).1],
         (runMetricTick st now mg acc.2.1).2.1,
         acc.2.2 ++ (runMetricTick st now mg acc.2.1).2.2)

/-- The metric loop of one tick: every metric's slice runs over the fresh
mutation created by `s.state.With()`. -/
def Supervisor.tickMetrics (s : Supervisor) (now : Int) :
    List Metric × StateMutation × List Event :=
  tickMetricsGo s.state now s.metrics ([], s.state.With, [])

/-- Listener notification of one tick: if the mutation was dirty, every
registered listener is called in registration order with the live,
already-applied state. -/
def tickListenEvents (s : Supervisor) (mu : StateMutation) : List Event :=
  if mu.dirty then s.listeners.map (fun lid => Event.listenerCalled lid mu.Apply)
  else []

/-- Persistence of one tick: if a sink is configured, `Save` is called
with the constant bucket `"gockpit"`, the supervisor's name, the full
current (post-apply) state data, and nil tags; a non-nil returned error is
logged. -/
def tickSaveEvents (s : Supervisor) (stApplied : State) : List Event :=
  match s.store with
  | none => []
  | some f =>
      Event.saveCalled "gockpit" s.name stApplied.data none
          (f "gockpit" s.name stApplied.data none)
        :: (match f "gockpit" s.name stApplied.data none with
            | some er => [Event.errorLogged er]
            | none => [])

/-- One full tick of `Supervisor.Run`'s loop body: metric loop, one
`Apply`, listener notification when dirty, unconditional persistence. -/
def Supervisor.tick (s : Supervisor) (now : Int) : Supervisor × List Event :=
  ({ s with
      metrics := (s.tickMetrics now).1,
      state := (s.tickMetrics now).2.1.Apply },
   (s.tickMetrics now).2.2
     ++ Event.applied :: tickListenEvents s (s.tickMetrics now).2.1
     ++ tickSaveEvents s (s.tickMetrics now).2.1.Apply)

/-- The two events the loop's `select` can observe: a ticker delivery, or
the cancellation signal installed by `Run` and fired by `Stop()`. -/
inductive LoopEvent where
  | tick (now : Int)
  | done

/-- One iteration of `Supervisor.Run`'s `for { select { ... } }`: the
returned flag says whether the iteration leaves the loop.  The tick case
runs the tick body and falls through to the next iteration; the
`<-ctx.Done()` case has an empty body, so it, too, falls through without
leaving the loop. -/
def Supervisor.loopStep (s : Supervisor) (e : LoopEvent) :
    Supervisor × List Event × Bool :=
  match e with
  | .tick now => ((s.tick now).1, (s.tick now).2, false)
  | .done => (s, [], false)

/-- The loop run over a sequence of observed `select` events, stopping as
soon as an iteration leaves the loop.  After cancellation both `select`
cases are ready (a closed `Done` channel is always ready and the ticker is
never stopped, its `Stop` being deferred in a function that never
returns), so the environment's event sequence may interleave `done` and
`tick` freely. -/
def Supervisor.loopRun (s : Supervisor) : List LoopEvent → Supervisor × List Event
  | [] => (s, [])
  | e :: rest =>
      if (s.loopStep e).2.2 then ((s.loopStep e).1, (s.loopStep e).2.1)
      else
        (((s.loopStep e).1.loopRun rest).1,
         (s.loopStep e).2.1 ++ ((s.loopStep e).1.loopRun rest).2)

/-- A staged error identity used in the concrete runs below. -/
def stagedErr : GoErr := ⟨1⟩

/-- A probe that stores 42 under "temp". -/
def probe0 : List MutOp := [MutOp.set "temp" (GoVal.vint 42)]

/-- A metric that is due on every tick. -/
def metric0 : Metric := { name := "temp", interval := 0, lastUpdate := 0, probe := probe0 }

/-- A supervisor with one always-due metric and no sink. -/
def sup0 : Supervisor :=
  { metrics := [metric0], state := emptyState, listeners := [], store := none, name := "sv" }

/-- A state with one data entry and empty error/alert tables. -/
def st4 : State :=
  { data := ⟨[("temp", GoVal.vint 42)]⟩, errors := ⟨[]⟩, alerts := ⟨[]⟩ }

/-- A state with two recorded errors. -/
def st6 : State :=
  { data := ⟨[]⟩, errors := ⟨[("k", ⟨3⟩), ("j", ⟨4⟩)]⟩, alerts := ⟨[]⟩ }

/-- A mutation over a live state that already holds 1 at "a". -/
def mut3 : StateMutation :=
  ({ data := ⟨[("a", GoVal.vint 1)]⟩, errors := ⟨[]⟩, alerts := ⟨[]⟩ } : State).With

/-- A metric with a non-trivial interval and the zero `lastUpdate`. -/
def metricW : Metric := { name := "cpu", interval := 5, lastUpdate := 0, probe := [] }

/-- A persistence sink that always fails with error 7. -/
def failSink : SaveFn := fun _ _ _ _ => some ⟨7⟩

/-- A supervisor with no metrics and the failing sink. -/
def sup8 : Supervisor :=
  { metrics := [], state := emptyState, listeners := [], store := some failSink, name := "sv8" }

theorem lookupEntries_erase_self {α : Type} (l : List (String × α)) (k : String) :
    lookupEntries (eraseEntries l k) k = none := by
  induction l with
  | nil => rfl
  | cons p rest ih =>
      obtain ⟨k', v⟩ := p
      by_cases h : k' = k
      · simpa [eraseEntries, h] using ih
      · simpa [eraseEntries, lookupEntries, h] using ih

theorem lookupEntries_erase_ne {α : Type} (l : List (String × α)) (k k' : String)
    (h : k ≠ k') : lookupEntries (eraseEntries l k) k' = lookupEntries l k' := by
  induction l with
  | nil => rfl
  | cons p rest ih =>
      obtain ⟨k0, v⟩ := p
      by_cases h0 : k0 = k
      · subst h0
        simp [eraseEntries, lookupEntries, h, ih]
      · simp [eraseEntries, lookupEntries, h0, ih]

theorem mem_eraseEntries {α : Type} (l : List (String × α)) (k : String) (p : String × α) :
    p ∈ eraseEntries l k ↔ p ∈ l ∧ p.1 ≠ k := by
  induction l with
  | nil => simp [eraseEntries]
  | cons q rest ih =>
      obtain ⟨k0, v⟩ := q
      by_cases h0 : k0 = k
      · subst h0
        simp only [eraseEntries, if_true]
        rw [ih]
        simp only [List.mem_cons]
        constructor
        · rintro ⟨hp, hne⟩
          exact ⟨Or.inr hp, hne⟩
        · rintro ⟨hp | hp, hne⟩
          · exact absurd (congrArg Prod.fst hp) hne
          · exact ⟨hp, hne⟩
      · simp only [eraseEntries]
        rw [if_neg h0]
        simp only [List.mem_cons, ih]
        constructor
        · rintro (hp | ⟨hp, hne⟩)
          · refine ⟨Or.inl hp, ?_⟩
            rw [hp]
            simpa using h0
          · exact ⟨Or.inr hp, hne⟩
        · rintro ⟨hp | hp, hne⟩
          · exact Or.inl hp
          · exact Or.inr ⟨hp, hne⟩

theorem lookupEntries_eq_none_iff {α : Type} (l : List (String × α)) (k : String) :
    lookupEntries l k = none ↔ ∀ p ∈ l, p.1 ≠ k := by
  induction l with
  | nil => simp [lookupEntries]
  | cons p rest ih =>
      obtain ⟨k0, v⟩ := p
      by_cases h0 : k0 = k
      · simp [lookupEntries, h0]
      · simp [lookupEntries, h0, ih]

theorem GoMap.lookup_set_ne {α : Type} (m : GoMap α) (k k' : String) (v : α)
    (h : k ≠ k') : (m.set k v).lookup k' = m.lookup k' := by
  simp only [GoMap.set, GoMap.lookup, lookupEntries, if_neg h]
  exact lookupEntries_erase_ne m.entries k k' h

theorem lookup_foldl_set {α : Type} (entries : List (String × α)) (base : GoMap α)
    (k : String) (h : ∀ p ∈ entries, p.1 ≠ k) :
    (entries.foldl (fun acc p => acc.set p.1 p.2) base).lookup k = base.lookup k := by
  induction entries generalizing base with
  | nil => rfl
  | cons p rest ih =>
      rw [List.foldl_cons]
      rw [ih (base.set p.1 p.2) (fun q hq => h q (List.mem_cons_of_mem p hq))]
      exact GoMap.lookup_set_ne base p.1 k p.2 (h p (List.mem_cons_self p rest))

theorem applyMutOp_state (m : StateMutation) (op : MutOp) :
    (applyMutOp m op).state = m.state := by
  cases op with
  | set k v =>
      by_cases h : (m.state.data.lookup k).getD GoVal.vnil = v <;>
        simp [applyMutOp, StateMutation.Set, h]
  | setErr k e =>
      by_cases h : e = m.state.errors.lookup k <;>
        simp [applyMutOp, StateMutation.SetError, h]

theorem runOps_state (ops : List MutOp) (m : StateMutation) :
    (runOps ops m).state = m.state := by
  induction ops generalizing m with
  | nil => rfl
  | cons op rest ih =>
      rw [runOps, List.foldl_cons]
      rw [show (rest.foldl applyMutOp (applyMutOp m op)) = runOps rest (applyMutOp m op) from rfl]
      rw [ih (applyMutOp m op), applyMutOp_state]

theorem runMetricTick_events (st : State) (now : Int) (mg : Metric) (mu : StateMutation) :
    ∀ e ∈ (runMetricTick st now mg mu).2.2,
      e.isListen = false ∧ e.isSave = false ∧ e.isLog = false := by
  by_cases hd : mg.lastUpdate + mg.interval < now
  · have hg : ¬ now ≤ mg.lastUpdate + mg.interval := by omega
    simp [runMetricTick, Metric.updateState, hd, hg, Event.isListen, Event.isSave, Event.isLog]
  · cases hg : st.getError mg.name with
    | none => simp [runMetricTick, hd, hg]
    | some er =>
        simp [runMetricTick, hd, hg, Event.isListen, Event.isSave, Event.isLog]

theorem tickMetricsGo_events (st : State) (now : Int) (ms : List Metric)
    (acc : List Metric × StateMutation × List Event)
    (hacc : ∀ e ∈ acc.2.2, e.isListen = false ∧ e.isSave = false ∧ e.isLog = false) :
    ∀ e ∈ (tickMetricsGo st now ms acc).2.2,
      e.isListen = false ∧ e.isSave = false ∧ e.isLog = false := by
  induction ms generalizing acc with
  | nil => exact hacc
  | cons mg rest ih =>
      refine ih _ ?_
      intro e he
      rcases List.mem_append.mp he with h | h
      · exact hacc e h
      · exact runMetricTick_events st now mg acc.2.1 e h

theorem tickMetrics_events (s : Supervisor) (now : Int) :
    ∀ e ∈ (s.tickMetrics now).2.2,
      e.isListen = false ∧ e.isSave = false ∧ e.isLog = false := by
  exact tickMetricsGo_events s.state now s.metrics ([], s.state.With, []) (by simp)

theorem tickListenEvents_filter_listen (s : Supervisor) (mu : StateMutation) :
    (tickListenEvents s mu).filter Event.isListen = tickListenEvents s mu := by
  rw [List.filter_eq_self]
  intro e he
  unfold tickListenEvents at he
  by_cases hd : mu.dirty
  · rw [if_pos hd] at he
    rcases List.mem_map.mp he with ⟨lid, _, rfl⟩
    rfl
  · rw [if_neg hd] at he
    cases he

theorem tickListenEvents_filter_savelog (s : Supervisor) (mu : StateMutation) :
    (tickListenEvents s mu).filter Event.isSaveOrLog = [] := by
  rw [List.filter_eq_nil_iff]
  intro e he
  unfold tickListenEvents at he
  by_cases hd : mu.dirty
  · rw [if_pos hd] at he
    rcases List.mem_map.mp he with ⟨lid, _, rfl⟩
    simp [Event.isSaveOrLog, Event.isSave, Event.isLog]
  · rw [if_neg hd] at he
    cases he

theorem tickSaveEvents_filter_listen (s : Supervisor) (stA : State) :
    (tickSaveEvents s stA).filter Event.isListen = [] := by
  rw [List.filter_eq_nil_iff]
  intro e he
  unfold tickSaveEvents at he
  cases hs : s.store with
  | none =>
      rw [hs] at he
      cases he
  | some f =>
      rw [hs] at he
      rcases List.mem_cons.mp he with rfl | h
      · simp [Event.isListen]
      · cases hr : f "gockpit" s.name stA.data none with
        | none =>
            rw [hr] at h
            cases h
        | some er =>
            rw [hr] at h
            rcases List.mem_singleton.mp h with rfl
            simp [Event.isListen]

theorem tickSaveEvents_filter_savelog (s : Supervisor) (stA : State) :
    (tickSaveEvents s stA).filter Event.isSaveOrLog = tickSaveEvents s stA := by
  rw [List.filter_eq_self]
  intro e he
  unfold tickSaveEvents at he
  cases hs : s.store with
  | none =>
      rw [hs] at he
      cases he
  | some f =>
      rw [hs] at he
      rcases List.mem_cons.mp he with rfl | h
      · simp [Event.isSaveOrLog, Event.isSave]
      · cases hr : f "gockpit" s.name stA.data none with
        | none =>
            rw [hr] at h
            cases h
        | some er =>
            rw [hr] at h
            rcases List.mem_singleton.mp h with rfl
            simp [Event.isSaveOrLog, Event.isSave, Event.isLog]

theorem tickMetrics_filter_listen (s : Supervisor) (now : Int) :
    ((s.tickMetrics now).2.2).filter Event.isListen = [] := by
  rw [List.filter_eq_nil_iff]
  intro e he
  simp [(tickMetrics_events s now e he).1]

theorem tickMetrics_filter_savelog (s : Supervisor) (now : Int) :
    ((s.tickMetrics now).2.2).filter Event.isSaveOrLog = [] := by
  rw [List.filter_eq_nil_iff]
  intro e he
  simp [Event.isSaveOrLog, (tickMetrics_events s now e he).2.1,
    (tickMetrics_events s now e he).2.2]

/-- C10: `StateMutation.Set` and `StateMutation.SetError` touch only the
mutation's disconnected staging store and its dirty flag — after any
sequence of such calls the live State's data mapping is exactly what it
was, so the live data changes only through `Apply()`. -/
theorem mutation_calls_leave_live_data (ops : List MutOp) (m : StateMutation) :
    (runOps ops m).state.data = m.state.data := by
  rw [runOps_state]

/-- C3: when the live State already holds `v` at `k`, `Set k v` does not
mark the mutation dirty and stages nothing, and after `Apply()` the live
State's stored value for `k` is identical to what it was before. -/
theorem set_noop_when_live_holds_value (m : StateMutation) (k : String) (v : GoVal)
    (hlive : m.state.data.lookup k = some v)
    (hstage : m.mutation.data.lookup k = none) :
    (m.Set k v).dirty = m.dirty
    ∧ (m.Set k v).mutation = m.mutation
    ∧ ((m.Set k v).Apply).data.lookup k = some v := by
  have hset : m.Set k v = m := by
    unfold StateMutation.Set
    rw [hlive]
    simp
  refine ⟨by rw [hset], by rw [hset], ?_⟩
  rw [hset]
  unfold StateMutation.Apply State.apply
  show (m.mutation.data.entries.foldl (fun acc p => acc.set p.1 p.2) m.state.data).lookup k
      = some v
  rw [lookup_foldl_set m.mutation.data.entries m.state.data k
      ((lookupEntries_eq_none_iff m.mutation.data.entries k).mp hstage)]
  exact hlive

/-- Closed instance of `set_noop_when_live_holds_value` at a concrete
mutation, discharging its hypotheses. -/
theorem set_noop_when_live_holds_value_witness :
    mut3.state.data.lookup "a" = some (GoVal.vint 1)
    ∧ mut3.mutation.data.lookup "a" = none
    ∧ (mut3.Set "a" (GoVal.vint 1)).dirty = mut3.dirty
    ∧ (mut3.Set "a" (GoVal.vint 1)).mutation = mut3.mutation
    ∧ ((mut3.Set "a" (GoVal.vint 1)).Apply).data.lookup "a" = some (GoVal.vint 1) := by
  refine ⟨rfl, rfl, ?_⟩
  have h := set_noop_when_live_holds_value mut3 "a" (GoVal.vint 1) rfl rfl
  exact ⟨h.1, h.2.1, h.2.2⟩

/-- C6: after a non-nil error was recorded for `k`, `setError(k, nil)`
removes `k` from the error table entirely: `Err k` reports absence, no
binding of `k` remains, and `HasErrors` is true only on account of other
keys — regardless of how many errors were previously recorded for `k`. -/
theorem setError_nil_removes_key (s : State) (k : String)
    (_hprev : s.getError k ≠ none) :
    (s.setError k none).Err k = none
    ∧ (s.setError k none).errors.lookup k = none
    ∧ ((s.setError k none).HasErrors = true ↔ ∃ p ∈ s.errors.entries, p.1 ≠ k) := by
  refine ⟨?_, ?_, ?_⟩
  · exact lookupEntries_erase_self s.errors.entries k
  · exact lookupEntries_erase_self s.errors.entries k
  · show (decide (0 < (eraseEntries s.errors.entries k).length) = true) ↔ _
    rw [decide_eq_true_iff]
    rw [List.length_pos]
    constructor
    · intro hne
      rcases List.exists_mem_of_ne_nil _ hne with ⟨p, hp⟩
      rcases (mem_eraseEntries s.errors.entries k p).mp hp with ⟨hmem, hne'⟩
      exact ⟨p, hmem, hne'⟩
    · rintro ⟨p, hmem, hne⟩
      intro hnil
      have : p ∈ eraseEntries s.errors.entries k :=
        (mem_eraseEntries s.errors.entries k p).mpr ⟨hmem, hne⟩
      rw [hnil] at this
      cases this

/-- Closed instance of `setError_nil_removes_key` at a table holding an
error for "k" and one for "j". -/
theorem setError_nil_removes_key_witness :
    st6.getError "k" ≠ none
    ∧ (st6.setError "k" none).Err "k" = none
    ∧ (st6.setError "k" none).errors.lookup "k" = none
    ∧ ((st6.setError "k" none).HasErrors = true ↔ ∃ p ∈ st6.errors.entries, p.1 ≠ "k") := by
  refine ⟨by decide, ?_⟩
  have h := setError_nil_removes_key st6 "k" (by decide)
  exact ⟨h.1, h.2.1, h.2.2⟩

/-- C9: on a key absent from the data mapping, the typed accessors return
the zero values `0`, `0.0`, `false`, `""`, and none of them fails with a
type error. -/
theorem typed_accessors_absent_key_defaults (s : State) (name : String)
    (h : s.data.lookup name = none) :
    s.Int name = Except.ok 0
    ∧ s.Float name = Except.ok 0
    ∧ s.Bool name = Except.ok false
    ∧ s.String name = "" := by
  refine ⟨?_, ?_, ?_, ?_⟩ <;>
    simp [State.Int, State.Float, State.Bool, State.String, h]

/-- Closed instance of `typed_accessors_absent_key_defaults` on the empty
state. -/
theorem typed_accessors_absent_key_defaults_witness :
    emptyState.data.lookup "missing" = none
    ∧ emptyState.Int "missing" = Except.ok 0
    ∧ emptyState.Float "missing" = Except.ok 0
    ∧ emptyState.Bool "missing" = Except.ok false
    ∧ emptyState.String "missing" = "" := by
  refine ⟨rfl, ?_⟩
  have h := typed_accessors_absent_key_defaults emptyState "missing" rfl
  exact ⟨h.1, h.2.1, h.2.2.1, h.2.2.2⟩

/-- C1 (code bug exhibit): an error staged through
`StateMutation.SetError` marks the mutation dirty and lands in the staging
store, yet after `Apply()` the live State's error table does not contain
it — `State.apply` merges only `other.data` and discards `other.errors`,
so `Err` reports absence and `HasErrors` stays false. -/
theorem apply_discards_staged_errors :
    (((emptyState.With).SetError "boiler" (some stagedErr)).dirty = true)
    ∧ (((emptyState.With).SetError "boiler" (some stagedErr)).mutation.errors.lookup "boiler"
        = some stagedErr)
    ∧ ((((emptyState.With).SetError "boiler" (some stagedErr)).Apply).Err "boiler" = none)
    ∧ ((((emptyState.With).SetError "boiler" (some stagedErr)).Apply).HasErrors = false) := by
  exact ⟨rfl, rfl, rfl, rfl⟩

/-- C5: in a metric's slice of the tick loop, the probe is invoked exactly
when `now` is strictly after `lastUpdate + interval`; when due,
`lastUpdate` is advanced to `now` (and left untouched otherwise); and a
metric with the zero-valued `lastUpdate` is due for every representable
`time.Duration` at any instant a real ticker can deliver (any instant
beyond `maxDuration` nanoseconds from the zero `Time`). -/
theorem metric_due_strictly_after_and_advances (st : State) (now : Int) (mg : Metric)
    (mu : StateMutation) :
    (Event.probeRun mg.name ∈ (runMetricTick st now mg mu).2.2
        ↔ mg.lastUpdate + mg.interval < now)
    ∧ (mg.lastUpdate + mg.interval < now →
        (runMetricTick st now mg mu).1.lastUpdate = now)
    ∧ (¬ mg.lastUpdate + mg.interval < now → (runMetricTick st now mg mu).1 = mg)
    ∧ (mg.lastUpdate = 0 → mg.interval ≤ maxDuration → maxDuration < now →
        Event.probeRun mg.name ∈ (runMetricTick st now mg mu).2.2) := by
  have hiff : Event.probeRun mg.name ∈ (runMetricTick st now mg mu).2.2
      ↔ mg.lastUpdate + mg.interval < now := by
    by_cases hd : mg.lastUpdate + mg.interval < now
    · have hg : ¬ now ≤ mg.lastUpdate + mg.interval := by omega
      simp [runMetricTick, Metric.updateState, hd, hg]
    · cases hg : st.getError mg.name with
      | none => simp [runMetricTick, hd, hg]
      | some er => simp [runMetricTick, hd, hg]
  refine ⟨hiff, ?_, ?_, ?_⟩
  · intro hd
    simp [runMetricTick, hd]
  · intro hd
    cases hg : st.getError mg.name with
    | none => simp [runMetricTick, hd, hg]
    | some er => simp [runMetricTick, hd, hg]
  · intro h0 hI hN
    refine hiff.mpr ?_
    rw [h0]
    have hlt : mg.interval < now := lt_of_le_of_lt hI hN
    omega

/-- Closed instance of `metric_due_strictly_after_and_advances`: the
metric with interval 5 and zero `lastUpdate` is due at instant `2^63`. -/
theorem metric_due_strictly_after_and_advances_witness :
    metricW.lastUpdate = 0
    ∧ metricW.interval ≤ maxDuration
    ∧ maxDuration < (2 : Int) ^ 63
    ∧ Event.probeRun "cpu" ∈ (runMetricTick emptyState ((2 : Int) ^ 63) metricW emptyState.With).2.2 := by
  refine ⟨rfl, by norm_num [metricW, maxDuration], by norm_num [maxDuration], ?_⟩
  exact (metric_due_strictly_after_and_advances emptyState ((2 : Int) ^ 63) metricW
      emptyState.With).2.2.2 rfl (by norm_num [metricW, maxDuration])
      (by norm_num [maxDuration])

/-- C7: the listener calls of a tick are exactly the registered listeners,
in registration order, each observing the live post-apply state, when the
tick's mutation is dirty — and there are none otherwise; and they sit
strictly after the apply point in the tick's event sequence, before the
persistence events. -/
theorem listeners_notified_iff_dirty (s : Supervisor) (now : Int) :
    ((s.tick now).2.filter Event.isListen
        = if (s.tickMetrics now).2.1.dirty
          then s.listeners.map (fun lid => Event.listenerCalled lid (s.tick now).1.state)
          else [])
    ∧ ((s.tick now).2
        = (s.tickMetrics now).2.2
            ++ Event.applied
              :: ((s.tick now).2.filter Event.isListen
                  ++ (s.tick now).2.filter Event.isSaveOrLog)) := by
  have h2 : (s.tick now).2
      = (s.tickMetrics now).2.2
          ++ Event.applied
            :: (tickListenEvents s (s.tickMetrics now).2.1
                ++ tickSaveEvents s (s.tickMetrics now).2.1.Apply) := by
    show ((s.tickMetrics now).2.2 ++ (Event.applied :: tickListenEvents s (s.tickMetrics now).2.1))
          ++ tickSaveEvents s (s.tickMetrics now).2.1.Apply = _
    rw [List.append_assoc, List.cons_append]
  have hnl : ¬ (Event.isListen Event.applied = true) := by decide
  have hns : ¬ (Event.isSaveOrLog Event.applied = true) := by decide
  have hL : (s.tick now).2.filter Event.isListen
      = tickListenEvents s (s.tickMetrics now).2.1 := by
    rw [h2, List.filter_append, tickMetrics_filter_listen, List.filter_cons_of_neg hnl,
      List.filter_append, tickListenEvents_filter_listen, tickSaveEvents_filter_listen,
      List.append_nil, List.nil_append]
  have hS : (s.tick now).2.filter Event.isSaveOrLog
      = tickSaveEvents s (s.tickMetrics now).2.1.Apply := by
    rw [h2, List.filter_append, tickMetrics_filter_savelog, List.filter_cons_of_neg hns,
      List.filter_append, tickListenEvents_filter_savelog, tickSaveEvents_filter_savelog,
      List.nil_append, List.nil_append]
  constructor
  · rw [hL]
    rfl
  · rw [hL, hS]
    exact h2

/-- C8: whether or not the tick's mutation was dirty, a configured sink's
`Save` is called exactly once per tick, with bucket `"gockpit"`, the
supervisor's name, the full current (post-apply) state data and nil tags;
a non-nil returned error is only logged; the in-memory state the tick
produces does not depend on the sink at all; and the tick iteration never
leaves the loop. -/
theorem save_forwarded_unconditionally (s : Supervisor) (now : Int) (f : SaveFn)
    (h : s.store = some f) :
    ((s.tick now).2.filter Event.isSaveOrLog
        = Event.saveCalled "gockpit" s.name (s.tick now).1.state.data none
            (f "gockpit" s.name (s.tick now).1.state.data none)
          :: (match f "gockpit" s.name (s.tick now).1.state.data none with
              | some er => [Event.errorLogged er]
              | none => []))
    ∧ (∀ g : Option SaveFn,
        (Supervisor.tick { s with store := g } now).1.state = (s.tick now).1.state)
    ∧ ((s.loopStep (LoopEvent.tick now)).2.2 = false) := by
  have h2 : (s.tick now).2
      = (s.tickMetrics now).2.2
          ++ Event.applied
            :: (tickListenEvents s (s.tickMetrics now).2.1
                ++ tickSaveEvents s (s.tickMetrics now).2.1.Apply) := by
    show ((s.tickMetrics now).2.2 ++ (Event.applied :: tickListenEvents s (s.tickMetrics now).2.1))
          ++ tickSaveEvents s (s.tickMetrics now).2.1.Apply = _
    rw [List.append_assoc, List.cons_append]
  have hns : ¬ (Event.isSaveOrLog Event.applied = true) := by decide
  have hS : (s.tick now).2.filter Event.isSaveOrLog
      = tickSaveEvents s (s.tickMetrics now).2.1.Apply := by
    rw [h2, List.filter_append, tickMetrics_filter_savelog, List.filter_cons_of_neg hns,
      List.filter_append, tickListenEvents_filter_savelog, tickSaveEvents_filter_savelog,
      List.nil_append, List.nil_append]
  refine ⟨?_, fun g => rfl, rfl⟩
  rw [hS]
  unfold tickSaveEvents
  rw [h]
  rfl

/-- Closed instance of `save_forwarded_unconditionally` on a supervisor
whose sink always fails with error 7. -/
theorem save_forwarded_unconditionally_witness :
    sup8.store = some failSink
    ∧ ((sup8.tick 1).2.filter Event.isSaveOrLog
        = [Event.saveCalled "gockpit" "sv8" ⟨[]⟩ none (some ⟨7⟩), Event.errorLogged ⟨7⟩]) := by
  refine ⟨rfl, ?_⟩
  exact (save_forwarded_unconditionally sup8 1 failSink rfl).1

/-- C2 (code bug exhibit): the `<-ctx.Done()` case of the loop's `select`
has an empty body and no `return`, so observing the cancellation signal
never leaves the loop, and a tick observed after cancellation still runs
its probes — here the probe of `sup0` fires on a tick that follows the
`done` event. -/
theorem cancellation_never_exits_loop :
    (∀ s : Supervisor, (s.loopStep LoopEvent.done).2.2 = false)
    ∧ ((sup0.loopRun [LoopEvent.done, LoopEvent.tick 1]).2.filter Event.isProbe
        = [Event.probeRun "temp"]) := by
  exact ⟨fun s => rfl, rfl⟩

/-- C4 counterexample: the data mapping is serialized under the member key
`state`, not `data` — on a concrete state the marshalled object's only
member key is `"state"` and no `"data"` member exists. -/
theorem marshal_member_key_is_state_not_data :
    (st4.MarshalJSON).objKeys = ["state"]
    ∧ ¬ ("data" ∈ (st4.MarshalJSON).objKeys) := by
  exact ⟨rfl, by decide⟩

/-- C4 (amended): a State marshals to an object with up to three members
in declaration order — the raw data mapping under the key `state`, the
error mapping under `errors` (omitted exactly when empty), and the alert
mapping under `alerts` (omitted exactly when empty). -/
theorem marshal_three_member_shape (s : State) :
    (s.MarshalJSON).objKeys
        = "state" :: ((if s.errors.isEmpty then [] else ["errors"])
            ++ (if s.alerts.isEmpty then [] else ["alerts"]))
    ∧ (s.MarshalJSON).objLookup "state" = some (dataToJson s.data)
    ∧ (s.MarshalJSON).objLookup "errors"
        = (if s.errors.isEmpty then none else some (errorsToJson s.errors))
    ∧ (s.MarshalJSON).objLookup "alerts"
        = (if s.alerts.isEmpty then none else some (alertsToJson s.alerts)) := by
  cases he : s.errors.isEmpty <;> cases ha : s.alerts.isEmpty <;>
    simp [State.MarshalJSON, Json.objKeys, Json.objLookup, lookupEntries, he, ha]
